import Mathlib

/-!
Verification of the flax nnx optimizer and lifted compilation modules.

This development shallowly embeds the two source files
flax/nnx/training/optimizer.py and flax/nnx/transforms/compilation.py.
Arrays are modelled as integers, pytrees as binary pair trees or as
positional lists of leaves, Python object identity as references (natural
numbers) into an explicit heap, and a raised Python exception as the error
side of Except.  External collaborators that do not belong to the two
source files (jax, optax, and the flax graph, extract, filterlib and
variablelib modules) are modelled from the specification of their
interfaces; each such definition carries a doc comment starting with
Modelled from the spec.
-/

namespace Flax

/-! ## Pytrees with Variable leaves, and to_opt_state
(optimizer.py lines 32 to 63) -/

/-- A pytree whose leaves are either Variables (a value plus metadata,
treated as atomic by the traversal) or bare arrays.  Containers are
modelled as nested pairs, array values as integers, and metadata as a
list of coded key and value pairs.  Modelled from the spec for the
Variable class of flax.nnx.variablelib, which is not under src. -/
inductive PyTree where
  | variableLeaf (value : Int) (metadata : List (Nat × Int))
  | arrayLeaf (v : Int)
  | pairNode (l r : PyTree)
deriving DecidableEq

/-- The result tree of to_opt_state: every leaf is an OptVariable or an
OptArray (optimizer.py lines 38 to 47). -/
inductive OptTree where
  | optVariable (value : Int) (metadata : List (Nat × Int))
  | optArray (v : Int)
  | pairNode (l r : OptTree)
deriving DecidableEq

/-- The shape of a pytree, forgetting all leaf contents. -/
inductive TreeShape where
  | leaf
  | pairNode (l r : TreeShape)
deriving DecidableEq

def PyTree.shape : PyTree → TreeShape
  | .variableLeaf _ _ => .leaf
  | .arrayLeaf _ => .leaf
  | .pairNode l r => .pairNode l.shape r.shape

def OptTree.shape : OptTree → TreeShape
  | .optVariable _ _ => .leaf
  | .optArray _ => .leaf
  | .pairNode l r => .pairNode l.shape r.shape

/-- A leaf of the input tree. -/
inductive PLeaf where
  | varLeaf (value : Int) (metadata : List (Nat × Int))
  | arrLeaf (v : Int)
deriving DecidableEq

/-- A leaf of the output tree. -/
inductive OLeaf where
  | optVariable (value : Int) (metadata : List (Nat × Int))
  | optArray (v : Int)
deriving DecidableEq

def PyTree.leaves : PyTree → List PLeaf
  | .variableLeaf v m => [.varLeaf v m]
  | .arrayLeaf v => [.arrLeaf v]
  | .pairNode l r => l.leaves ++ r.leaves

def OptTree.leaves : OptTree → List OLeaf
  | .optVariable v m => [.optVariable v m]
  | .optArray v => [.optArray v]
  | .pairNode l r => l.leaves ++ r.leaves

/-- Embedding of to_opt_state (optimizer.py lines 50 to 63): the inner
closure maps a Variable leaf to OptVariable with the value read out of
the Variable and a copy of its metadata, any other leaf to OptArray
wrapping the value; jax.tree.map with is leaf on Variables applies it to
every leaf and preserves the container structure. -/
def to_opt_state : PyTree → OptTree
  | .variableLeaf v m => .optVariable v m
  | .arrayLeaf v => .optArray v
  | .pairNode l r => .pairNode (to_opt_state l) (to_opt_state r)

/-- The per leaf conversion exactly as the spec states it: a Variable
leaf becomes an OptVariable carrying the current value and a copy of all
of the metadata, a non Variable leaf becomes an OptArray wrapping the
value unchanged.  Stated separately from to_opt_state so that the claim
compares the source traversal against the spec description. -/
def convertLeafSpec : PLeaf → OLeaf
  | .varLeaf v m => .optVariable v m
  | .arrLeaf v => .optArray v

/-! ## StateSharding and its resolution loop
(compilation.py lines 44 to 104) -/

/-- A path into a state tree, with parts coded as naturals. -/
abbrev Path := List Nat

/-- The Variable handed to a filter predicate: a type tag code plus the
held value.  Modelled from the spec for flax.nnx.variablelib. -/
structure VarInfo where
  tag : Nat
  value : Int
deriving DecidableEq

/-- A filter over paths and Variables.  Modelled from the spec:
filterlib.to_predicate turns a filter into a predicate on a path and
Variable pair; filters are embedded directly as their predicates. -/
abbrev SFilter := Path → VarInfo → Bool

/-- A sharding specification, coded as an integer. -/
abbrev ShardSpec := Int

/-- Errors raised by the embedded code; each constructor records the data
interpolated into the corresponding Python exception message. -/
inductive JitErr where
  | noAxisFound (path : Path) (v : VarInfo)
  | expectedTreeNode (path : Path) (typeName : Nat)
  | raisedArgsInfo (v : Int)
deriving DecidableEq

/-- StateSharding (compilation.py lines 44 to 61) stores the filters and
the sharding specs as two parallel tuples. -/
structure StateSharding where
  filters : List SFilter
  shardings : List ShardSpec

/-- Construction from an iterable of filter and spec pairs
(compilation.py lines 55 to 61). -/
def StateSharding.ofPairs (l : List (SFilter × ShardSpec)) : StateSharding :=
  ⟨l.map Prod.fst, l.map Prod.snd⟩

/-- The loop body of StateSharding.map_prefix (compilation.py lines 74
to 78): walk the zipped filter and sharding pairs, return the sharding of
the first filter whose predicate accepts, raise ValueError with the path
and the variable in the message if none does. -/
def resolveLoop (path : Path) (v : VarInfo) :
    List (SFilter × ShardSpec) → Except JitErr ShardSpec
  | [] => .error (.noAxisFound path v)
  | fs :: rest => if fs.1 path v then .ok fs.2 else resolveLoop path v rest

/-- Embedding of StateSharding.map_prefix (compilation.py lines 71 to
78), renamed to resolveAxis. -/
def StateSharding.resolveAxis (s : StateSharding) (path : Path) (v : VarInfo) :
    Except JitErr ShardSpec :=
  resolveLoop path v (s.filters.zip s.shardings)

/-! ## The merge function of the jit boundary
(compilation.py lines 101 to 104) -/

/-- The extracted representation of a graph node: a structural descriptor
(coded as a natural) plus the extracted state leaves.  Embeds
extract.NodeStates, which is not under src; modelled from the spec. -/
structure NodeStates where
  graphdef : Nat
  states : List Int
deriving DecidableEq

/-- A leaf of the pure tree handed back to the merge function: either an
extracted representation node or some other value, recorded with a code
for its Python type. -/
inductive ExtractLeaf where
  | nodeStates (ns : NodeStates)
  | otherLeaf (typeName : Nat)
deriving DecidableEq

/-- Modelled from the spec: ctx.unflatten of the graph collaborator
reconstructs a live node from the structural descriptor and the state
trees. -/
def unflatten (graphdef : Nat) (states : List Int) : Nat × List Int :=
  (graphdef, states)

/-- Embedding of the private jit merge function (compilation.py lines 101
to 104): a leaf that is not a NodeStates raises ValueError carrying the
path and the actual type, otherwise the node is reconstructed. -/
def jitMergeFn (path : Path) (leaf : ExtractLeaf) :
    Except JitErr (Nat × List Int) :=
  match leaf with
  | .nodeStates ns => .ok (unflatten ns.graphdef ns.states)
  | .otherLeaf ty => .error (.expectedTreeNode path ty)

/-! ## Staged object accessors (compilation.py lines 499 to 697) -/

/-- Modelled from the spec: the backend compiled artifact of the
compilation collaborator (jax.stages.Compiled).  Capability dependent
accessors yield none when the backend cannot provide the information. -/
structure JaxCompiled where
  argsInfoVal : Int
  asTextVal : Option Int
  costAnalysisVal : Option Int
  memoryAnalysisVal : Option Int
  runtimeExecutableVal : Option Int
deriving DecidableEq

/-- Modelled from the spec: the backend lowered artifact
(jax.stages.Lowered). -/
structure JaxLowered where
  argsInfoVal : Int
  costAnalysisVal : Option Int
deriving DecidableEq

/-- Embedding of the Compiled wrapper (compilation.py lines 499 to 602),
keeping only the underlying artifact. -/
structure Compiled where
  compiled : JaxCompiled
deriving DecidableEq

/-- Embedding of the Lowered wrapper (compilation.py lines 605 to 696). -/
structure Lowered where
  lowered : JaxLowered
deriving DecidableEq

/-- Compiled.as_text (compilation.py line 550): pass through. -/
def Compiled.asText (c : Compiled) : Except JitErr (Option Int) :=
  .ok c.compiled.asTextVal

/-- Compiled.cost_analysis (compilation.py line 564): pass through. -/
def Compiled.costAnalysis (c : Compiled) : Except JitErr (Option Int) :=
  .ok c.compiled.costAnalysisVal

/-- Compiled.memory_analysis (compilation.py line 578): pass through. -/
def Compiled.memoryAnalysis (c : Compiled) : Except JitErr (Option Int) :=
  .ok c.compiled.memoryAnalysisVal

/-- Compiled.runtime_executable (compilation.py line 590): pass
through. -/
def Compiled.runtimeExecutable (c : Compiled) : Except JitErr (Option Int) :=
  .ok c.compiled.runtimeExecutableVal

/-- Compiled.args_info (compilation.py lines 516 to 518): the source
executes a raise statement on the underlying value instead of returning
it, so the accessor always raises. -/
def Compiled.argsInfo (c : Compiled) : Except JitErr Int :=
  .error (.raisedArgsInfo c.compiled.argsInfoVal)

/-- Lowered.args_info (compilation.py lines 623 to 625): pass through. -/
def Lowered.argsInfo (l : Lowered) : Except JitErr Int :=
  .ok l.lowered.argsInfoVal

/-- Lowered.cost_analysis (compilation.py line 696): pass through. -/
def Lowered.costAnalysis (l : Lowered) : Except JitErr (Option Int) :=
  .ok l.lowered.costAnalysisVal

/-! ## Heap model of Variables for the optimizers
(optimizer.py lines 66 to 322)

A Variable is a mutable cell identified by a reference (a natural); the
heap assigns every reference its current value.  A model is represented
by the references of its trainable Variables in filter order, gradients
and state leaves positionally as lists of integers. -/

abbrev Heap := Nat → Int

/-- Write a list of values at a list of references, leftmost first.
Modelled from the spec: the in place update of the graph collaborator and
direct Variable value assignment both write values into the existing
cells, by tree position. -/
def writeList : Heap → List Nat → List Int → Heap
  | h, i :: is, v :: vs => writeList (fun n => if n = i then v else h n) is vs
  | h, _, _ => h

/-- A keyword argument leaf: either a reference to a Variable or a bare
array value.  Used to observe whether an optimizer converts keyword
arguments before handing them to the gradient transformation. -/
inductive KLeaf where
  | varRef (id : Nat)
  | arrVal (v : Int)
deriving DecidableEq

/-- Modelled from the spec: nnx.freeze composed with nnx.pure produces an
immutable plain value view of a tree, replacing every Variable by its
current value (optimizer.py lines 217 to 220). -/
def pureFreeze (h : Heap) : KLeaf → KLeaf
  | .varRef i => .arrVal (h i)
  | .arrVal v => .arrVal v

/-- Modelled from the spec: the gradient transformation collaborator.
init maps a parameter leaf list to a state leaf list; update maps
gradients, state, parameters and keyword arguments to updates and a new
state. -/
structure Tx where
  init : List Int → List Int
  update : List Int → List Int → List Int → List KLeaf → List Int × List Int

/-- Modelled from the spec: optax.apply_updates combines parameters and
updates elementwise by addition (optimizer.py line 225). -/
def applyUpdates (params updates : List Int) : List Int :=
  List.zipWith (fun p u => p + u) params updates

/-- The Optimizer object (optimizer.py lines 131 to 158): the reference
of the step Variable, the references of the trainable Variables selected
by the wrt filter, and the references of the OptState Variables built by
to_opt_state.  The model and tx fields are represented by paramIds and by
passing the transformation explicitly. -/
structure Optimizer where
  stepId : Nat
  paramIds : List Nat
  optIds : List Nat
deriving DecidableEq

/-- Embedding of the Optimizer constructor (optimizer.py lines 131 to
158): step is a fresh OptState Variable holding 0 as an unsigned 32 bit
counter, opt_state wraps the leaves of tx.init on the current filtered
parameter values in fresh OptState Variables at references above
fresh. -/
def Optimizer.create (tx : Tx) (paramIds : List Nat) (h : Heap) (fresh : Nat) :
    Optimizer × Heap :=
  let initVals := tx.init (paramIds.map h)
  let optIds := (List.range initVals.length).map (fun i => fresh + 1 + i)
  let h1 : Heap := fun n => if n = fresh then 0 else h n
  (⟨fresh, paramIds, optIds⟩, writeList h1 optIds initVals)

/-- Embedding of Optimizer.update (optimizer.py lines 216 to 229):
extract parameter, opt state and keyword argument values to plain arrays,
call tx.update, apply the updates, write the new parameter values into
the model Variables and the new state into the opt_state Variables in
place, then increment the unsigned 32 bit step counter by one.  The
method returns None; the new heap is the side effect. -/
def Optimizer.update (tx : Tx) (o : Optimizer) (grads : List Int)
    (kwargs : List KLeaf) (h : Heap) : Optimizer × Heap :=
  let paramVals := o.paramIds.map h
  let optVals := o.optIds.map h
  let kwargsArr := kwargs.map (pureFreeze h)
  let res := tx.update grads optVals paramVals kwargsArr
  let newParams := applyUpdates paramVals res.1
  let h1 := writeList h o.paramIds newParams
  let h2 := writeList h1 o.optIds res.2
  let h3 : Heap := fun n =>
    if n = o.stepId then (h2 o.stepId + 1) % 4294967296 else h2 n
  (o, h3)

/-- N successive Optimizer.update calls, one per gradients and keyword
arguments pair. -/
def Optimizer.updateN (tx : Tx) (o : Optimizer) :
    List (List Int × List KLeaf) → Heap → Heap
  | [], h => h
  | gk :: rest, h => Optimizer.updateN tx o rest (Optimizer.update tx o gk.1 gk.2 h).2

/-- The PytreeOptimizer object (optimizer.py lines 298 to 301): the step
reference and the opt_state references; params are supplied on every
update call. -/
structure PytreeOptimizer where
  stepId : Nat
  optIds : List Nat
deriving DecidableEq

/-- Embedding of the PytreeOptimizer constructor (optimizer.py lines 298
to 301). -/
def PytreeOptimizer.create (tx : Tx) (params : List Nat) (h : Heap) (fresh : Nat) :
    PytreeOptimizer × Heap :=
  let initVals := tx.init (params.map h)
  let optIds := (List.range initVals.length).map (fun i => fresh + 1 + i)
  let h1 : Heap := fun n => if n = fresh then 0 else h n
  (⟨fresh, optIds⟩, writeList h1 optIds initVals)

/-- Embedding of PytreeOptimizer.update (optimizer.py lines 303 to 322):
identical numeric core, but params are caller supplied references and the
keyword arguments are forwarded to tx.update without conversion; the new
parameter and state values are written in place positionally by the tree
map over the paired trees, then step is incremented. -/
def PytreeOptimizer.update (tx : Tx) (po : PytreeOptimizer) (params : List Nat)
    (grads : List Int) (kwargs : List KLeaf) (h : Heap) : PytreeOptimizer × Heap :=
  let paramVals := params.map h
  let optVals := po.optIds.map h
  let res := tx.update grads optVals paramVals kwargs
  let newParams := applyUpdates paramVals res.1
  let h1 := writeList h params newParams
  let h2 := writeList h1 po.optIds res.2
  let h3 : Heap := fun n =>
    if n = po.stepId then (h2 po.stepId + 1) % 4294967296 else h2 n
  (po, h3)

/-- N successive PytreeOptimizer.update calls on the same params. -/
def PytreeOptimizer.updateN (tx : Tx) (po : PytreeOptimizer) (params : List Nat) :
    List (List Int × List KLeaf) → Heap → Heap
  | [], h => h
  | gk :: rest, h =>
      PytreeOptimizer.updateN tx po params rest
        (PytreeOptimizer.update tx po params gk.1 gk.2 h).2

/-! ## Concrete instances used for counterexamples and witnesses -/

/-- A transformation that forwards the gradients as updates and keeps
its state: zero gradients give zero updates. -/
def txId : Tx := ⟨fun p => p, fun g s _ _ => (g, s)⟩

/-- A transformation with empty state that always emits the update 1,
whatever the gradients: a legal instance of the collaborator interface
(compare optax transformations that add decayed weights). -/
def txConst : Tx := ⟨fun _ => [], fun _ s _ _ => ([1], s)⟩

/-- An injective enough coding of a keyword argument leaf, used by the
probe transformation to record what it was handed. -/
def encodeKw : KLeaf → Int
  | .varRef i => -((i : Int) + 1)
  | .arrVal v => v

/-- A probe transformation that records the keyword arguments it receives
in its new state, to observe the calling convention. -/
def txProbe : Tx :=
  ⟨fun p => p.map (fun _ => 0),
   fun _ _ p kw => (p.map (fun _ => 0), kw.map encodeKw)⟩

/-- An all zero heap. -/
def hZero : Heap := fun _ => 0

/-- A heap holding 10 everywhere. -/
def hTen : Heap := fun _ => 10

/-- A heap holding 5 at reference 0 and 0 elsewhere. -/
def hProbe : Heap := fun n => if n = 0 then 5 else 0

/-- A concrete optimizer: step Variable at 2, one trainable parameter at
0, one opt state Variable at 1. -/
def oC : Optimizer := ⟨2, [0], [1]⟩

/-- The concrete pytree optimizer matching oC. -/
def poC : PytreeOptimizer := ⟨2, [1]⟩

/-! ## Heap model of the jit boundary crossing protocol
(compilation.py lines 94 to 136 and 405 to 435) -/

/-- The heap of graph node objects; a graph node is identified by its
reference. -/
abbrev GHeap := Nat → Int

/-- An argument or result of a lifted function: a stateful graph node,
identified by its reference, or a plain value. -/
inductive GArg where
  | node (r : Nat)
  | plain (v : Int)
deriving DecidableEq

/-- The extracted representation of one graph node: the stable index the
per call context assigned to its identity, plus the extracted state.
Embeds the descriptor side of extract.NodeStates for this protocol. -/
structure PureNode where
  idx : Nat
  state : Int
deriving DecidableEq

/-- A leaf of the pure argument tree crossing the boundary. -/
inductive PureVal where
  | node (n : PureNode)
  | plain (v : Int)
deriving DecidableEq

/-- First index of a reference in a context list. -/
def findIndex (r : Nat) : List Nat → Option Nat
  | [] => none
  | x :: xs => if x = r then some 0 else Option.map (fun i => i + 1) (findIndex r xs)

/-- Modelled from the spec: the per call context of graph.update_context
registers a graph node the first time it is extracted and assigns it a
stable descriptor index; a node already registered keeps its index
(argument aliasing). -/
def registerRef (ctx : List Nat) (r : Nat) : Nat × List Nat :=
  match findIndex r ctx with
  | some i => (i, ctx)
  | none => (ctx.length, ctx ++ [r])

/-- Modelled from the spec: extract.to_tree replaces every graph node by
its extracted representation, reading its state out of the heap, and
passes plain leaves through (used by JitWrapped and by JitFn). -/
def toPureList (ctx : List Nat) (h : GHeap) : List GArg → List PureVal × List Nat
  | [] => ([], ctx)
  | .plain v :: rest =>
      let p := toPureList ctx h rest
      (.plain v :: p.1, p.2)
  | .node r :: rest =>
      let q := registerRef ctx r
      let p := toPureList q.2 h rest
      (.node ⟨q.1, h r⟩ :: p.1, p.2)

/-- Modelled from the spec: extract.from_tree with is inner true, the
start of JitFn call (compilation.py lines 118 to 124), builds a fresh
inner object for every extracted node not seen before and reuses the
already built object for an index registered earlier, so aliased inputs
become one inner object. -/
def fromPureInner :
    List PureVal → List Nat → GHeap → Nat → List GArg × List Nat × GHeap × Nat
  | [], ctx, ih, c => ([], ctx, ih, c)
  | .plain v :: rest, ctx, ih, c =>
      let p := fromPureInner rest ctx ih c
      (.plain v :: p.1, p.2.1, p.2.2.1, p.2.2.2)
  | .node nd :: rest, ctx, ih, c =>
      match ctx[nd.idx]? with
      | some r =>
          let p := fromPureInner rest ctx ih c
          (.node r :: p.1, p.2.1, p.2.2.1, p.2.2.2)
      | none =>
          let ih2 : GHeap := fun n => if n = c then nd.state else ih n
          let p := fromPureInner rest (ctx ++ [c]) ih2 (c + 1)
          (.node c :: p.1, p.2.1, p.2.2.1, p.2.2.2)

/-- Modelled from the spec: extract.from_tree with is inner false, the
end of JitWrapped call (compilation.py lines 418 to 435), reconciles
every extracted node whose descriptor index was registered on the way in
back onto the identical caller side object, writing the state produced
inside the pure boundary into that object; an unregistered index denotes
a node created inside and materializes a fresh caller side object. -/
def fromPureOuter :
    List PureVal → List Nat → GHeap → Nat → List GArg × List Nat × GHeap × Nat
  | [], ctx, h, c => ([], ctx, h, c)
  | .plain v :: rest, ctx, h, c =>
      let p := fromPureOuter rest ctx h c
      (.plain v :: p.1, p.2.1, p.2.2.1, p.2.2.2)
  | .node nd :: rest, ctx, h, c =>
      match ctx[nd.idx]? with
      | some r =>
          let h2 : GHeap := fun n => if n = r then nd.state else h n
          let p := fromPureOuter rest ctx h2 c
          (.node r :: p.1, p.2.1, p.2.2.1, p.2.2.2)
      | none =>
          let h2 : GHeap := fun n => if n = c then nd.state else h n
          let p := fromPureOuter rest (ctx ++ [c]) h2 (c + 1)
          (.node c :: p.1, p.2.1, p.2.2.1, p.2.2.2)

/-- extract.clear_non_graph_nodes strips non graph leaves of the argument
tuple before the output leg extraction (compilation.py line 128). -/
def clearNonGraph (args : List GArg) : List GArg :=
  args.map fun a =>
    match a with
    | .node r => .node r
    | .plain _ => .plain 0

/-- The body of the lifted function: it may mutate graph node arguments
through the heap and returns a list of results. -/
abbrev UserFn := List GArg → GHeap → List GArg × GHeap

/-- The full call protocol of JitWrapped call (compilation.py lines 427
to 435) around JitFn call (lines 118 to 136): outer extraction, inner
reconstruction, user function body, extraction of the cleared arguments
and of the output, and outer reconciliation of first the arguments and
then the output.  The jax.jit wrapper itself is semantically the identity
on the pure function it wraps and is elided. -/
def jitWrappedCall (uf : UserFn) (args : List GArg) (h : GHeap) (freshOuter : Nat) :
    List GArg × GHeap :=
  let ex := toPureList [] h args
  let inn := fromPureInner ex.1 [] (fun _ => 0) 0
  let res := uf inn.1 inn.2.2.1
  let exArgsOut := toPureList inn.2.1 res.2 (clearNonGraph inn.1)
  let exOut := toPureList exArgsOut.2 res.2 res.1
  let outArgs := fromPureOuter exArgsOut.1 ex.2 h freshOuter
  let outRes := fromPureOuter exOut.1 outArgs.2.1 outArgs.2.2.1 outArgs.2.2.2
  (outRes.1, outRes.2.2.1)

/-- A user function that mutates its first argument, a graph node, by g,
and returns that node: the scenario of the identity preservation
requirement. -/
def mutateAndReturnFirst (g : Int → Int) : UserFn := fun args ih =>
  match args with
  | .node r :: _ => ([.node r], fun n => if n = r then g (ih n) else ih n)
  | _ => ([], ih)

/-! ## Helper lemmas -/

theorem zip_map_fst_snd (l : List (SFilter × ShardSpec)) :
    (l.map Prod.fst).zip (l.map Prod.snd) = l := by
  induction l with
  | nil => rfl
  | cons a as ih => simp [ih]

theorem writeList_not_mem (ids : List Nat) (vs : List Int) (h : Heap) (n : Nat)
    (hn : n ∉ ids) : writeList h ids vs n = h n := by
  induction ids generalizing vs h with
  | nil => rfl
  | cons i is ih =>
      cases vs with
      | nil => rfl
      | cons v vs =>
          have hni : n ≠ i := fun hh => hn (hh ▸ List.mem_cons_self i is)
          have hnis : n ∉ is := fun hh => hn (List.mem_cons_of_mem i hh)
          show writeList (fun m => if m = i then v else h m) is vs n = h n
          rw [ih vs _ hnis]
          simp [hni]

theorem writeList_congr (ids : List Nat) (vs : List Int) (h1 h2 : Heap)
    (hh : ∀ m, h1 m = h2 m) (n : Nat) :
    writeList h1 ids vs n = writeList h2 ids vs n := by
  induction ids generalizing vs h1 h2 with
  | nil => exact hh n
  | cons i is ih =>
      cases vs with
      | nil => exact hh n
      | cons v vs =>
          show writeList (fun m => if m = i then v else h1 m) is vs n
            = writeList (fun m => if m = i then v else h2 m) is vs n
          apply ih
          intro m
          by_cases hm : m = i <;> simp [hm, hh m]

theorem writeList_self (ids : List Nat) (h : Heap) (n : Nat) :
    writeList h ids (ids.map h) n = h n := by
  induction ids generalizing h with
  | nil => rfl
  | cons i is ih =>
      show writeList (fun m => if m = i then h i else h m) is (is.map h) n = h n
      rw [writeList_congr is (is.map h) (fun m => if m = i then h i else h m) h
        (fun m => by by_cases hm : m = i <;> simp [hm])]
      exact ih h

theorem pureFreeze_map_idem (h : Heap) (kw : List KLeaf) :
    (kw.map (pureFreeze h)).map (pureFreeze h) = kw.map (pureFreeze h) := by
  induction kw with
  | nil => rfl
  | cons k ks ih => cases k <;> simp [pureFreeze, ih]

theorem zipWith_add_replicate_zero (l : List Int) :
    List.zipWith (fun p u => p + u) l (List.replicate l.length 0) = l := by
  induction l with
  | nil => rfl
  | cons x xs ih => simp [List.replicate, ih]

theorem lt_not_mem_optIds (p fresh len : Nat) (hp : p < fresh + 1) :
    p ∉ (List.range len).map (fun i => fresh + 1 + i) := by
  intro hmem
  simp only [List.mem_map, List.mem_range] at hmem
  obtain ⟨x, _, hx⟩ := hmem
  omega

theorem update_step_val (tx : Tx) (o : Optimizer) (grads : List Int)
    (kwargs : List KLeaf) (h : Heap)
    (hs1 : o.stepId ∉ o.paramIds) (hs2 : o.stepId ∉ o.optIds) :
    (Optimizer.update tx o grads kwargs h).2 o.stepId
      = (h o.stepId + 1) % 4294967296 := by
  simp only [Optimizer.update, if_true]
  rw [writeList_not_mem _ _ _ _ hs2, writeList_not_mem _ _ _ _ hs1]

theorem pupdate_step_val (tx : Tx) (po : PytreeOptimizer) (params : List Nat)
    (grads : List Int) (kwargs : List KLeaf) (h : Heap)
    (hs1 : po.stepId ∉ params) (hs2 : po.stepId ∉ po.optIds) :
    (PytreeOptimizer.update tx po params grads kwargs h).2 po.stepId
      = (h po.stepId + 1) % 4294967296 := by
  simp only [PytreeOptimizer.update, if_true]
  rw [writeList_not_mem _ _ _ _ hs2, writeList_not_mem _ _ _ _ hs1]

theorem updateN_step_general (tx : Tx) (o : Optimizer)
    (hs1 : o.stepId ∉ o.paramIds) (hs2 : o.stepId ∉ o.optIds) :
    ∀ (gss : List (List Int × List KLeaf)) (k : Int) (h : Heap),
      h o.stepId = k % 4294967296 →
      Optimizer.updateN tx o gss h o.stepId = (k + gss.length) % 4294967296 := by
  intro gss
  induction gss with
  | nil => intro k h hk; simpa [Optimizer.updateN] using hk
  | cons gk rest ih =>
      intro k h hk
      show Optimizer.updateN tx o rest (Optimizer.update tx o gk.1 gk.2 h).2 o.stepId = _
      have hstep : (Optimizer.update tx o gk.1 gk.2 h).2 o.stepId
          = (k + 1) % 4294967296 := by
        rw [update_step_val tx o gk.1 gk.2 h hs1 hs2, hk]; omega
      rw [ih (k + 1) _ hstep]
      congr 1
      push_cast [List.length_cons]
      ring

theorem pupdateN_step_general (tx : Tx) (po : PytreeOptimizer) (params : List Nat)
    (hs1 : po.stepId ∉ params) (hs2 : po.stepId ∉ po.optIds) :
    ∀ (gss : List (List Int × List KLeaf)) (k : Int) (h : Heap),
      h po.stepId = k % 4294967296 →
      PytreeOptimizer.updateN tx po params gss h po.stepId
        = (k + gss.length) % 4294967296 := by
  intro gss
  induction gss with
  | nil => intro k h hk; simpa [PytreeOptimizer.updateN] using hk
  | cons gk rest ih =>
      intro k h hk
      show PytreeOptimizer.updateN tx po params rest
          (PytreeOptimizer.update tx po params gk.1 gk.2 h).2 po.stepId = _
      have hstep : (PytreeOptimizer.update tx po params gk.1 gk.2 h).2 po.stepId
          = (k + 1) % 4294967296 := by
        rw [pupdate_step_val tx po params gk.1 gk.2 h hs1 hs2, hk]; omega
      rw [ih (k + 1) _ hstep]
      congr 1
      push_cast [List.length_cons]
      ring

theorem create_step_zero (tx : Tx) (pids : List Nat) (h : Heap) (fresh : Nat) :
    (Optimizer.create tx pids h fresh).2 fresh = 0 := by
  show writeList (fun n => if n = fresh then 0 else h n)
      ((List.range (tx.init (pids.map h)).length).map (fun i => fresh + 1 + i))
      (tx.init (pids.map h)) fresh = 0
  rw [writeList_not_mem _ _ _ _ (lt_not_mem_optIds fresh fresh _ (by omega))]
  simp

theorem pcreate_step_zero (tx : Tx) (pids : List Nat) (h : Heap) (fresh : Nat) :
    (PytreeOptimizer.create tx pids h fresh).2 fresh = 0 := by
  show writeList (fun n => if n = fresh then 0 else h n)
      ((List.range (tx.init (pids.map h)).length).map (fun i => fresh + 1 + i))
      (tx.init (pids.map h)) fresh = 0
  rw [writeList_not_mem _ _ _ _ (lt_not_mem_optIds fresh fresh _ (by omega))]
  simp

theorem create_heap_below (tx : Tx) (pids : List Nat) (h : Heap) (fresh : Nat)
    (p : Nat) (hp : p < fresh) :
    (Optimizer.create tx pids h fresh).2 p = h p := by
  show writeList (fun n => if n = fresh then 0 else h n)
      ((List.range (tx.init (pids.map h)).length).map (fun i => fresh + 1 + i))
      (tx.init (pids.map h)) p = h p
  rw [writeList_not_mem _ _ _ _ (lt_not_mem_optIds p fresh _ (by omega))]
  simp [Nat.ne_of_lt hp]

theorem update_zero_updates (tx : Tx) (o : Optimizer) (grads : List Int)
    (kwargs : List KLeaf) (h : Heap) (p : Nat)
    (hup : (tx.update grads (o.optIds.map h) (o.paramIds.map h)
        (kwargs.map (pureFreeze h))).1
        = List.replicate (o.paramIds.map h).length 0)
    (hpo : p ∉ o.optIds) (hps : p ≠ o.stepId) :
    (Optimizer.update tx o grads kwargs h).2 p = h p := by
  simp only [Optimizer.update]
  rw [if_neg hps, writeList_not_mem _ _ _ _ hpo, hup]
  simp only [applyUpdates]
  rw [zipWith_add_replicate_zero]
  exact writeList_self _ _ _

/-! ## Claim theorems -/

/-- C2: for every tree whose leaves are Variables or bare arrays,
to_opt_state returns a tree of identical shape, every Variable leaf
becomes an OptVariable holding that Variable's current value and a copy
of all of its metadata, and every other leaf becomes an OptArray wrapping
the value unchanged; Variables are atomic leaves and the input is not
modified (the embedding is a pure function on trees). -/
theorem C2_to_opt_state_shape_and_leaves (t : PyTree) :
    (to_opt_state t).shape = t.shape ∧
      (to_opt_state t).leaves = t.leaves.map convertLeafSpec := by
  induction t with
  | variableLeaf v m =>
      simp [to_opt_state, PyTree.shape, OptTree.shape, PyTree.leaves,
        OptTree.leaves, convertLeafSpec]
  | arrayLeaf v =>
      simp [to_opt_state, PyTree.shape, OptTree.shape, PyTree.leaves,
        OptTree.leaves, convertLeafSpec]
  | pairNode l r ihl ihr =>
      simp [to_opt_state, PyTree.shape, OptTree.shape, PyTree.leaves,
        OptTree.leaves, ihl.1, ihl.2, ihr.1, ihr.2]

/-- C3: for a StateSharding built from an ordered list of filter and
sharding pairs, resolution returns the sharding paired with the first
filter, in construction order, whose predicate accepts the path and
variable, and raises the lookup error naming the offending path and value
when no filter matches. -/
theorem C3_first_match_wins (l : List (SFilter × ShardSpec)) (path : Path)
    (v : VarInfo) :
    (StateSharding.ofPairs l).resolveAxis path v =
      match l.find? (fun fs => fs.1 path v) with
      | some fs => Except.ok fs.2
      | none => Except.error (JitErr.noAxisFound path v) := by
  show resolveLoop path v ((l.map Prod.fst).zip (l.map Prod.snd)) = _
  rw [zip_map_fst_snd]
  induction l with
  | nil => rfl
  | cons a as ih =>
      by_cases ha : a.1 path v
      · simp [resolveLoop, List.find?, ha]
      · simp only [resolveLoop, List.find?, ha]
        simpa [ha] using ih

/-- C9: the merge function raises a type mismatch error, carrying the
offending path and the actual type of the leaf, exactly when the leaf it
receives is not an extracted representation node; a NodeStates leaf is
reconstructed without error. -/
theorem C9_merge_fn_type_check (path : Path) :
    (∀ ty : Nat, jitMergeFn path (ExtractLeaf.otherLeaf ty)
        = Except.error (JitErr.expectedTreeNode path ty)) ∧
    (∀ ns : NodeStates,
        ∃ node, jitMergeFn path (ExtractLeaf.nodeStates ns) = Except.ok node) :=
  ⟨fun _ => rfl, fun ns => ⟨unflatten ns.graphdef ns.states, rfl⟩⟩

/-- C8: the capability dependent accessors of Compiled are pure pass
throughs that return the underlying artifact's possibly unavailable
value, and Lowered.args_info passes through as well, but Compiled's
args_info accessor raises on every instance instead of returning the
underlying value, contradicting the claim. -/
theorem C8_args_info_raises (c : Compiled) (l : Lowered) :
    Compiled.asText c = Except.ok c.compiled.asTextVal ∧
    Compiled.costAnalysis c = Except.ok c.compiled.costAnalysisVal ∧
    Compiled.memoryAnalysis c = Except.ok c.compiled.memoryAnalysisVal ∧
    Compiled.runtimeExecutable c = Except.ok c.compiled.runtimeExecutableVal ∧
    Lowered.argsInfo l = Except.ok l.lowered.argsInfoVal ∧
    Compiled.argsInfo c = Except.error (JitErr.raisedArgsInfo c.compiled.argsInfoVal) :=
  ⟨rfl, rfl, rfl, rfl, rfl, rfl⟩

/-- C4: a successful Optimizer.update call leaves every Variable identity
in place (the optimizer object, with its parameter, opt state and step
references, is returned unchanged and only held values change), touches
no heap cell outside the trainable parameters, the opt state and the step
counter, and increments the unsigned 32 bit step cell; the call returns
nothing beyond this side effect on the heap. -/
theorem C4_update_in_place (tx : Tx) (o : Optimizer) (grads : List Int)
    (kwargs : List KLeaf) (h : Heap)
    (hs1 : o.stepId ∉ o.paramIds) (hs2 : o.stepId ∉ o.optIds) :
    (Optimizer.update tx o grads kwargs h).1 = o ∧
    (∀ n, n ∉ o.paramIds → n ∉ o.optIds → n ≠ o.stepId →
      (Optimizer.update tx o grads kwargs h).2 n = h n) ∧
    (Optimizer.update tx o grads kwargs h).2 o.stepId
      = (h o.stepId + 1) % 4294967296 := by
  refine ⟨rfl, ?_, update_step_val tx o grads kwargs h hs1 hs2⟩
  intro n hn1 hn2 hne
  simp only [Optimizer.update]
  rw [if_neg hne, writeList_not_mem _ _ _ _ hn2, writeList_not_mem _ _ _ _ hn1]

/-- Witness for C4 at a concrete optimizer, transformation and heap. -/
theorem C4_update_in_place_witness :
    (oC.stepId ∉ oC.paramIds ∧ oC.stepId ∉ oC.optIds) ∧
    ((Optimizer.update txId oC [7] [] hZero).1 = oC ∧
      (∀ n, n ∉ oC.paramIds → n ∉ oC.optIds → n ≠ oC.stepId →
        (Optimizer.update txId oC [7] [] hZero).2 n = hZero n) ∧
      (Optimizer.update txId oC [7] [] hZero).2 oC.stepId
        = (hZero oC.stepId + 1) % 4294967296) :=
  ⟨⟨by decide, by decide⟩,
    C4_update_in_place txId oC [7] [] hZero (by decide) (by decide)⟩

/-- C5: for both Optimizer and PytreeOptimizer the step counter is
created holding 0 and each update call increments it by exactly one, so
after N updates with any gradients and keyword arguments the counter
holds N (N below the unsigned 32 bit modulus). -/
theorem C5_step_counter (tx : Tx) (pids : List Nat) (h : Heap) (fresh : Nat)
    (gss : List (List Int × List KLeaf))
    (hp : ∀ p ∈ pids, p < fresh)
    (hlen : (gss.length : Int) < 4294967296) :
    (Optimizer.create tx pids h fresh).2 (Optimizer.create tx pids h fresh).1.stepId
      = 0 ∧
    Optimizer.updateN tx (Optimizer.create tx pids h fresh).1 gss
        (Optimizer.create tx pids h fresh).2 (Optimizer.create tx pids h fresh).1.stepId
      = gss.length ∧
    (PytreeOptimizer.create tx pids h fresh).2
        (PytreeOptimizer.create tx pids h fresh).1.stepId = 0 ∧
    PytreeOptimizer.updateN tx (PytreeOptimizer.create tx pids h fresh).1 pids gss
        (PytreeOptimizer.create tx pids h fresh).2
        (PytreeOptimizer.create tx pids h fresh).1.stepId
      = gss.length := by
  have hfp : fresh ∉ pids := fun hm => absurd (hp fresh hm) (lt_irrefl fresh)
  have hfo : fresh ∉ (List.range (tx.init (pids.map h)).length).map
      (fun i => fresh + 1 + i) := lt_not_mem_optIds fresh fresh _ (by omega)
  refine ⟨create_step_zero tx pids h fresh, ?_,
    pcreate_step_zero tx pids h fresh, ?_⟩
  · have h0 : (Optimizer.create tx pids h fresh).2
        (Optimizer.create tx pids h fresh).1.stepId = (0 : Int) % 4294967296 := by
      show (Optimizer.create tx pids h fresh).2 fresh = (0 : Int) % 4294967296
      rw [create_step_zero]
      decide
    have hg := updateN_step_general tx (Optimizer.create tx pids h fresh).1
      (by exact hfp) (by exact hfo) gss 0 (Optimizer.create tx pids h fresh).2 h0
    rw [hg, zero_add]
    exact Int.emod_eq_of_lt (Int.natCast_nonneg _) hlen
  · have h0 : (PytreeOptimizer.create tx pids h fresh).2
        (PytreeOptimizer.create tx pids h fresh).1.stepId = (0 : Int) % 4294967296 := by
      show (PytreeOptimizer.create tx pids h fresh).2 fresh = (0 : Int) % 4294967296
      rw [pcreate_step_zero]
      decide
    have hg := pupdateN_step_general tx (PytreeOptimizer.create tx pids h fresh).1
      pids (by exact hfp) (by exact hfo) gss 0
      (PytreeOptimizer.create tx pids h fresh).2 h0
    rw [hg, zero_add]
    exact Int.emod_eq_of_lt (Int.natCast_nonneg _) hlen

/-- Witness for C5: two updates on a freshly created optimizer pair leave
both step counters at 2. -/
theorem C5_step_counter_witness :
    (∀ p ∈ [0], p < 1) ∧ (((([([4], []), ([6], [])] :
        List (List Int × List KLeaf))).length : Int) < 4294967296) ∧
    ((Optimizer.create txId [0] hZero 1).2
        (Optimizer.create txId [0] hZero 1).1.stepId = 0 ∧
      Optimizer.updateN txId (Optimizer.create txId [0] hZero 1).1
          [([4], []), ([6], [])] (Optimizer.create txId [0] hZero 1).2
          (Optimizer.create txId [0] hZero 1).1.stepId
        = ([([4], []), ([6], [])] : List (List Int × List KLeaf)).length ∧
      (PytreeOptimizer.create txId [0] hZero 1).2
          (PytreeOptimizer.create txId [0] hZero 1).1.stepId = 0 ∧
      PytreeOptimizer.updateN txId (PytreeOptimizer.create txId [0] hZero 1).1 [0]
          [([4], []), ([6], [])] (PytreeOptimizer.create txId [0] hZero 1).2
          (PytreeOptimizer.create txId [0] hZero 1).1.stepId
        = ([([4], []), ([6], [])] : List (List Int × List KLeaf)).length) :=
  ⟨by decide, by decide,
    C5_step_counter txId [0] hZero 1 [([4], []), ([6], [])] (by decide) (by decide)⟩

/-- C6: a PytreeOptimizer constructed directly on the model's filtered
parameter Variables and an Optimizer constructed on the model with the
same filter and transformation, after one update call each with identical
gradients and no extra keyword arguments, leave numerically identical
parameter values and identical opt state contents. -/
theorem C6_pytree_optimizer_equivalence (tx : Tx) (pids : List Nat)
    (grads : List Int) (h : Heap) (fresh : Nat) :
    pids.map (Optimizer.update tx (Optimizer.create tx pids h fresh).1 grads []
        (Optimizer.create tx pids h fresh).2).2
      = pids.map (PytreeOptimizer.update tx (PytreeOptimizer.create tx pids h fresh).1
          pids grads [] (PytreeOptimizer.create tx pids h fresh).2).2 ∧
    (Optimizer.create tx pids h fresh).1.optIds.map
        (Optimizer.update tx (Optimizer.create tx pids h fresh).1 grads []
          (Optimizer.create tx pids h fresh).2).2
      = (PytreeOptimizer.create tx pids h fresh).1.optIds.map
          (PytreeOptimizer.update tx (PytreeOptimizer.create tx pids h fresh).1
            pids grads [] (PytreeOptimizer.create tx pids h fresh).2).2 :=
  ⟨rfl, rfl⟩

/-- Counterexample to C7 as stated for arbitrary transformations: a
transformation that emits the constant update 1 regardless of the
gradients (a legal instance of the collaborator interface, compare
weight decay) changes the parameter value on an update with zero
gradients. -/
theorem C7_zero_gradients_counterexample :
    (Optimizer.update txConst (Optimizer.create txConst [0] hTen 1).1 [0] []
        (Optimizer.create txConst [0] hTen 1).2).2 0 ≠ hTen 0 := by
  decide

/-- C7 amended: for a gradient transformation whose update maps all zero
gradients to all zero updates, constructing the Optimizer and calling
update once with all zero gradients leaves every trainable parameter
value unchanged while the step counter goes from 0 to 1. -/
theorem C7_zero_gradients_amended (tx : Tx) (pids : List Nat) (h : Heap)
    (fresh : Nat)
    (hp : ∀ p ∈ pids, p < fresh)
    (hz : ∀ s p, (tx.update (List.replicate p.length 0) s p []).1
        = List.replicate p.length 0) :
    (∀ p ∈ pids,
      (Optimizer.update tx (Optimizer.create tx pids h fresh).1
          (List.replicate pids.length 0) [] (Optimizer.create tx pids h fresh).2).2 p
        = h p) ∧
    (Optimizer.create tx pids h fresh).2 (Optimizer.create tx pids h fresh).1.stepId
      = 0 ∧
    (Optimizer.update tx (Optimizer.create tx pids h fresh).1
        (List.replicate pids.length 0) [] (Optimizer.create tx pids h fresh).2).2
      (Optimizer.create tx pids h fresh).1.stepId = 1 := by
  have hfp : fresh ∉ pids := fun hm => absurd (hp fresh hm) (lt_irrefl fresh)
  have hfo : fresh ∉ (List.range (tx.init (pids.map h)).length).map
      (fun i => fresh + 1 + i) := lt_not_mem_optIds fresh fresh _ (by omega)
  refine ⟨?_, create_step_zero tx pids h fresh, ?_⟩
  · intro p hmem
    have hplt : p < fresh := hp p hmem
    have h1 : (Optimizer.update tx (Optimizer.create tx pids h fresh).1
        (List.replicate pids.length 0) [] (Optimizer.create tx pids h fresh).2).2 p
        = (Optimizer.create tx pids h fresh).2 p := by
      apply update_zero_updates
      · have hzz := hz ((Optimizer.create tx pids h fresh).1.optIds.map
            (Optimizer.create tx pids h fresh).2)
          ((Optimizer.create tx pids h fresh).1.paramIds.map
            (Optimizer.create tx pids h fresh).2)
        simpa [List.length_map] using hzz
      · exact lt_not_mem_optIds p fresh _ (by omega)
      · exact Nat.ne_of_lt hplt
    rw [h1]
    exact create_heap_below tx pids h fresh p hplt
  · have hv := update_step_val tx (Optimizer.create tx pids h fresh).1
      (List.replicate pids.length 0) [] (Optimizer.create tx pids h fresh).2
      (by exact hfp) (by exact hfo)
    rw [hv]
    show ((Optimizer.create tx pids h fresh).2 fresh + 1) % 4294967296 = 1
    rw [create_step_zero]
    decide

/-- Witness for the amended C7 at a concrete optimizer and the identity
transformation. -/
theorem C7_zero_gradients_amended_witness :
    (∀ p ∈ [0], p < 1) ∧
    (∀ s p, (txId.update (List.replicate p.length 0) s p []).1
        = List.replicate p.length 0) ∧
    ((∀ p ∈ [0],
        (Optimizer.update txId (Optimizer.create txId [0] hTen 1).1
            (List.replicate ([0] : List Nat).length 0) []
            (Optimizer.create txId [0] hTen 1).2).2 p = hTen p) ∧
      (Optimizer.create txId [0] hTen 1).2
          (Optimizer.create txId [0] hTen 1).1.stepId = 0 ∧
      (Optimizer.update txId (Optimizer.create txId [0] hTen 1).1
          (List.replicate ([0] : List Nat).length 0) []
          (Optimizer.create txId [0] hTen 1).2).2
        (Optimizer.create txId [0] hTen 1).1.stepId = 1) :=
  ⟨by decide, fun s p => rfl,
    C7_zero_gradients_amended txId [0] hTen 1 (by decide) (fun s p => rfl)⟩

/-- C10: Optimizer.update converts its extra keyword arguments to plain
immutable arrays before invoking the transformation (its result only
depends on the converted form), while PytreeOptimizer.update forwards
them unconverted; a probe transformation that records the keyword
arguments it receives exhibits different argument representations for a
keyword tree containing a Variable leaf. -/
theorem C10_kwargs_calling_convention :
    (∀ (tx : Tx) (o : Optimizer) (grads : List Int) (kwargs : List KLeaf) (h : Heap),
        Optimizer.update tx o grads kwargs h
          = Optimizer.update tx o grads (kwargs.map (pureFreeze h)) h) ∧
    (Optimizer.update txProbe oC [0] [KLeaf.varRef 0] hProbe).2 1 = 5 ∧
    (PytreeOptimizer.update txProbe poC [0] [0] [KLeaf.varRef 0] hProbe).2 1 = -1 ∧
    (Optimizer.update txProbe oC [0] [KLeaf.varRef 0] hProbe).2 1
      ≠ (PytreeOptimizer.update txProbe poC [0] [0] [KLeaf.varRef 0] hProbe).2 1 := by
  refine ⟨?_, by decide, by decide, by decide⟩
  intro tx o grads kwargs h
  simp only [Optimizer.update, pureFreeze_map_idem]

/-- C1: a stateful graph node passed to the jit wrapped call, mutated
inside the body and returned, comes back as the identical object the
caller passed in, holding the mutated value; the same holds when the node
is referenced twice in the input. -/
theorem C1_jit_identity_preservation (g : Int → Int) (r : Nat) (h : GHeap)
    (fo : Nat) :
    ((jitWrappedCall (mutateAndReturnFirst g) [GArg.node r] h fo).1
        = [GArg.node r] ∧
      (jitWrappedCall (mutateAndReturnFirst g) [GArg.node r] h fo).2 r = g (h r)) ∧
    ((jitWrappedCall (mutateAndReturnFirst g) [GArg.node r, GArg.node r] h fo).1
        = [GArg.node r] ∧
      (jitWrappedCall (mutateAndReturnFirst g) [GArg.node r, GArg.node r] h fo).2 r
        = g (h r)) := by
  simp [jitWrappedCall, toPureList, fromPureInner, fromPureOuter, registerRef,
    findIndex, clearNonGraph, mutateAndReturnFirst]

end Flax
